import Mathlib

/-!
Verification of the CBB MIDI Player transport/timing controller.

Shallow embedding of the app layer (`build-constants.js`, first document:
the current app.js) and the engine adapter (`JSSynthPlayer`, the version
embedded in `vite.config.js` / `synthesizer-player.js`).

Conventions used throughout:
* JavaScript numbers that are always integral ticks are modelled as `ℕ`
  (engine tick/total/tempo queries) or `ℤ` (playlist indices, which start
  at -1); seconds and slider fractions are modelled as `ℚ`.
* An awaited engine query that may throw (or return `null` through
  `safeSynthCall`) is modelled as `Option ℕ`: `none` is the failure case.
* A JavaScript value that may be `NaN` / non-finite is modelled as an
  `Option ℚ` (`none` = not a finite number) where all non-finite values
  behave alike (`formatTimeStr` maps them all to "00:00"), and as the
  four-case `JSNum` (finite, NaN, +Infinity, -Infinity) where the
  infinities behave differently (the adapter's `seek`).
* Calls issued to the engine adapter are recorded in a `Cmd` trace so that
  ordering claims (seek-before-play, timer-cancel-after-play) are provable.
-/

namespace CBB

/-! ## Time formatting (`formatTimeStr`, build-constants.js lines 212-220) -/

/-- JavaScript `String.prototype.padStart(target, c)` with a one-character
pad string: prepend copies of `c` until the target length is reached. -/
def jsPadStart (s : String) (target : ℕ) (c : Char) : String :=
  String.mk (List.replicate (target - s.length) c) ++ s

/-- `String(n).padStart(2, '0')` as used for minutes and seconds fields. -/
def pad2 (n : ℕ) : String := jsPadStart (Nat.repr n) 2 '0'

/-- `Math.max(0, Math.floor(seconds))` for a finite JavaScript number,
viewed as the natural number it is (the max with 0 makes it one). -/
def jsSeconds (q : ℚ) : ℕ := (⌊q⌋).toNat

/-- `formatTimeStr(seconds)`: non-numbers and non-finite numbers (`none`)
print as "00:00"; otherwise clamp to a non-negative whole number of seconds
and print `H:MM:SS` when at least one hour, else `MM:SS`. -/
def formatTimeStr : Option ℚ → String
  | none => "00:00"
  | some seconds =>
    if 0 < jsSeconds seconds / 3600 then
      Nat.repr (jsSeconds seconds / 3600) ++ ":" ++
        pad2 (jsSeconds seconds % 3600 / 60) ++ ":" ++ pad2 (jsSeconds seconds % 60)
    else pad2 (jsSeconds seconds % 3600 / 60) ++ ":" ++ pad2 (jsSeconds seconds % 60)

/-! ## Engine adapter query fallbacks (`synthesizer-player.js` lines 181-188)

`getTotalTicks`, `getCurrentTick` and `getMidiTempoUsPerQuarter` wrap the
underlying engine query in try/catch.  The engine outcome is modelled as
`Option ℕ`: `some v` is a successful query, `none` means the query threw
(engine missing or not ready).  Each wrapper is a total function: a failure
is never propagated to the caller. -/

/-- `async getTotalTicks()`: the engine's answer, or 0 when the query throws. -/
def getTotalTicks (engine : Option ℕ) : ℕ :=
  match engine with
  | some v => v
  | none => 0

/-- `async getCurrentTick()`: the engine's answer, or 0 when the query throws. -/
def getCurrentTick (engine : Option ℕ) : ℕ :=
  match engine with
  | some v => v
  | none => 0

/-- `async getMidiTempoUsPerQuarter()`: the engine's answer, or 500000 when
the query throws. -/
def getMidiTempoUsPerQuarter (engine : Option ℕ) : ℕ :=
  match engine with
  | some v => v
  | none => 500000

/-- Modelled from the spec's words (for comparison with the code): a getter
that "must return a last-known-good fallback rather than throwing" returns
the last successfully observed value when the present query fails. -/
def lastKnownGoodFallback (lastGood : ℕ) (engine : Option ℕ) : ℕ :=
  match engine with
  | some v => v
  | none => lastGood

/-! ## Adapter seek (`JSSynthPlayer.seek`, synthesizer-player.js lines 131-136) -/

/-- Result of JavaScript `Number(x)` coercion: a finite number, NaN (which
is also what every non-numeric argument coerces to), or a signed
infinity. -/
inductive JSNum where
  | nan
  | posInf
  | negInf
  | num (q : ℚ)
  deriving DecidableEq

/-- `Math.max(0, y)` for an integer `y`. -/
def jsMax0 (y : ℤ) : ℤ := if y < 0 then 0 else y

/-- A value that `Math.max(0, Math.floor(·))` can produce: an integer, or
+Infinity (−Infinity is absorbed by the max with 0). -/
inductive JSTick where
  | fin (t : ℤ)
  | inf
  deriving DecidableEq

/-- Whether an extended tick value is an actual integer. -/
def JSTick.isFinite : JSTick → Bool
  | .fin _ => true
  | .inf => false

/-- `Math.max(0, Math.floor(Number(ticks) || 0))`, by cases on the coerced
argument: NaN (and 0 itself) is falsy, so `|| 0` yields 0; a finite number
`q` floors to `⌊q⌋` and the max lifts it to at least 0; -Infinity is truthy,
floors to -Infinity and is absorbed to 0 by the max; +Infinity is truthy and
passes through both `Math.floor` and `Math.max` unchanged. -/
def seekTick : JSNum → JSTick
  | .nan => .fin 0
  | .num q => .fin (jsMax0 ⌊q⌋)
  | .negInf => .fin 0
  | .posInf => .inf

/-- The part of the adapter state that `seek` reads and writes. -/
structure AdapterSeekState where
  hasSynth : Bool
  currentTime : ℚ
  deriving DecidableEq

/-- `JSSynthPlayer.seek(ticks)`: no-op when `_synth` is absent; otherwise
forward the sanitised tick to `seekPlayer` (returned as `some t`) and reset
the `_currentTime` mirror exactly when that tick is the number 0
(`t === 0` is false for +Infinity). -/
def JSSynthPlayer.seek (x : JSNum) (s : AdapterSeekState) :
    AdapterSeekState × Option JSTick :=
  if s.hasSynth then
    let t := seekTick x
    ({ s with currentTime := if t = .fin 0 then 0 else s.currentTime }, some t)
  else (s, none)

/-! ## SMF header parsing (`parsePpqFromSmfHeader`, build-constants.js 740-766) -/

/-- Read one byte of a `DataView` buffer: `none` past the end (a read that
needs it raises a RangeError), and the stored value is always mod 256. -/
def byteAt (bytes : List ℕ) (i : ℕ) : Option ℕ :=
  (bytes[i]?).map (· % 256)

/-- `dv.getUint32(0, false)`: the big-endian 32-bit magic, or `none`
(RangeError, caught by the surrounding try) when fewer than 4 bytes. -/
def headerMagic (bytes : List ℕ) : Option ℕ :=
  match byteAt bytes 0, byteAt bytes 1, byteAt bytes 2, byteAt bytes 3 with
  | some b0, some b1, some b2, some b3 =>
      some (((b0 * 256 + b1) * 256 + b2) * 256 + b3)
  | _, _, _, _ => none

/-- The raw big-endian 16-bit division field at byte offset 12
(`dv.getInt16(12, false)` reads these two bytes; `none` = RangeError).
The source's signed tests translate to tests on this raw value: bit 15 is
set exactly when `raw ≥ 0x8000`, and the signed value is `> 0` exactly when
bit 15 is clear and `raw > 0`. -/
def headerDivision (bytes : List ℕ) : Option ℕ :=
  match byteAt bytes 12, byteAt bytes 13 with
  | some hi, some lo => some (hi * 256 + lo)
  | _, _ => none

/-- `parsePpqFromSmfHeader(arrayBuffer)` acting on `timing.ppq`: given the
entry value of `timing.ppq` it returns the value after the call.  Magic
mismatch, a short buffer (caught exception) and the SMPTE format (bit 15
set) leave `ppq` unchanged; a PPQ-format division `> 0` is adopted; a
division of 0 falls back to the default 480.  The function is total: no
error reaches the caller. -/
def parsePpqFromSmfHeader (bytes : List ℕ) (ppq : ℕ) : ℕ :=
  match headerMagic bytes with
  | none => ppq
  | some m =>
    if m = 0x4D546864 then
      match headerDivision bytes with
      | none => ppq
      | some raw =>
        if raw < 0x8000 then (if 0 < raw then raw else 480) else ppq
    else ppq

/-! ## Audio graph power control

`player.setAudioState(state)` (vite.config.js lines 235-272) drives three
booleans of the adapter: the heartbeat node connection
(`setHeartbeatEnabled`), the main output node connection
(`setMainNodeEnabled`) and the AudioContext suspension (`setIdle`). -/

/-- Connection/suspension state of the audio graph. -/
structure AudioGraph where
  heartbeatConnected : Bool
  mainNodeConnected : Bool
  suspended : Bool
  deriving DecidableEq

/-- The five `AUDIO_STATE` values (build-constants.js lines 32-38). -/
inductive AudioMode where
  | playing
  | paused
  | stopped
  | lowPower
  | wakeUp
  deriving DecidableEq

/-- `setAudioState`: playing = resume + connect main + connect heartbeat;
paused = disconnect heartbeat only (graph kept warm); stopped and lowPower =
disconnect heartbeat and main, suspend; wakeUp = resume + connect main. -/
def setAudioState (g : AudioGraph) : AudioMode → AudioGraph
  | .playing =>
      { heartbeatConnected := true, mainNodeConnected := true, suspended := false }
  | .paused => { g with heartbeatConnected := false }
  | .stopped =>
      { heartbeatConnected := false, mainNodeConnected := false, suspended := true }
  | .lowPower =>
      { heartbeatConnected := false, mainNodeConnected := false, suspended := true }
  | .wakeUp => { g with mainNodeConnected := true, suspended := false }

/-! ## Transport state machine (build-constants.js, app layer)

The module-level mutable state of the app: the `timing` instance of
`TimingState`, the transport flags, the playlist position, the pending
low-power timer and the audio graph.  The playlist itself is modelled only
by its length (`trackCount`), which is all the transport logic reads. -/

/-- `PAUSE_LOW_POWER_MS` (build-constants.js line 28). -/
def PAUSE_LOW_POWER_MS : ℕ := 30000

/-- `SEEK_SLIDER_MAX` (build-constants.js line 30). -/
def SEEK_SLIDER_MAX : ℕ := 1000

/-- `DEFAULT_TEMPO_US_PER_QUARTER` (line 26). -/
def DEFAULT_TEMPO_US_PER_QUARTER : ℕ := 500000

/-- `DEFAULT_PPQ` (line 27). -/
def DEFAULT_PPQ : ℕ := 480

/-- App state: `timing` fields (`currentTick`, `totalTicks`,
`tempoUsPerQuarter`, `ppq`), transport flags, playlist position, the
pending low-power timer and the audio graph. -/
structure AppState where
  currentTick : ℕ
  totalTicks : ℕ
  tempoUsPerQuarter : ℕ
  ppq : ℕ
  isPlaying : Bool
  suppressFirstSynthRead : Bool
  currentIndex : ℤ
  trackCount : ℕ
  loopOn : Bool
  autoplay : Bool
  timerArmed : Bool
  graph : AudioGraph
  deriving DecidableEq

/-- `TimingState.clampTick()` (build-constants.js lines 95-98):
`currentTick = Math.max(0, Math.min(currentTick, totalTicks))`.  On `ℕ` the
outer max is the identity.  Note: this method is defined in the source but
no transport operation ever invokes it. -/
def clampTick (s : AppState) : AppState :=
  { s with currentTick := min s.currentTick s.totalTicks }

/-- Commands issued to the engine adapter, in program order. -/
inductive Cmd where
  | seek (t : ℕ)
  | play
  | pause
  | loadMidi (index : ℤ)
  | setAudio (m : AudioMode)
  | clearTimer
  | armTimer
  deriving DecidableEq

/-- The three values an `updateTimeline` pass may read back from the engine
(`retrievePlayerCurrentTick`, `retrievePlayerTotalTicks`,
`retrievePlayerMIDITempo`), each `none` when the awaited call fails. -/
structure EngineResp where
  tick : Option ℕ
  total : Option ℕ
  tempo : Option ℕ
  deriving DecidableEq

/-- The engine interactions of one `loadTrack` call: the raw track bytes
(for the header parse), the queried total/tempo, and the responses consumed
by the trailing `updateTimeline()`. -/
structure LoadResp where
  bytes : List ℕ
  total : Option ℕ
  tempo : Option ℕ
  ui : EngineResp
  deriving DecidableEq

/-- `TimingState.updateFromSynth(totalTicks, tempoUsPerQuarter)` (lines
72-77): each value is adopted only when it is a number `> 0`.  (The unused
`ppq` parameter keeps its default at every call site and is omitted;
`secPerTick` is derived data and recomputed on demand.) -/
def updateFromSynth (s : AppState) (totalTicks tempoUsPerQuarter : Option ℕ) :
    AppState :=
  let t1 := match totalTicks with
    | some v => if 0 < v then v else s.totalTicks
    | none => s.totalTicks
  let q1 := match tempoUsPerQuarter with
    | some v => if 0 < v then v else s.tempoUsPerQuarter
    | none => s.tempoUsPerQuarter
  { s with totalTicks := t1, tempoUsPerQuarter := q1 }

/-- The playhead-sync part of `updateTimeline()` (lines 358-367): while
playing (and not suppressing the first read after play) adopt the engine's
current tick when the query succeeds. -/
def utTickPart (r : EngineResp) (s : AppState) : AppState :=
  if s.isPlaying then
    if s.suppressFirstSynthRead then { s with suppressFirstSynthRead := false }
    else
      match r.tick with
      | some t => { s with currentTick := t }
      | none => s
  else s

/-- One pass of `updateTimeline()` (lines 355-392), state part only: the
playhead sync above, then, while `totalTicks` is still 0, the lazy adoption
of total/tempo via `updateFromSynth`.  DOM updates are elided. -/
def updateTimelineStep (r : EngineResp) (s : AppState) : AppState :=
  if (utTickPart r s).totalTicks = 0 then
    updateFromSynth (utTickPart r s) r.total r.tempo
  else utTickPart r s

/-- `playTrack()` (lines 464-486): no-op unless a track is active; otherwise
seek the engine to the authoritative `currentTick`, set the suppress guard,
issue `play()`, set mode Playing, set the audio state to `playing`, start
the UI loop, and finally `cancelPauseLowPower()` (clear the low-power timer
and issue the `wakeUp` audio state). -/
def playTrackF (s : AppState) : AppState × List Cmd :=
  if s.currentIndex < 0 then (s, [])
  else
    ({ s with suppressFirstSynthRead := true, isPlaying := true,
              graph := setAudioState (setAudioState s.graph .playing) .wakeUp,
              timerArmed := false },
     [Cmd.seek s.currentTick, Cmd.play, Cmd.setAudio .playing,
      Cmd.clearTimer, Cmd.setAudio .wakeUp])

/-- `pauseTrack()` (lines 489-503): read the engine tick back into
`currentTick` (kept on failure), issue `pause()`, set mode Paused, run an
`updateTimeline()` pass, set the audio state to `paused`, stop the UI loop
and arm the low-power timer. -/
def pauseTrackF (readback : Option ℕ) (ui : EngineResp) (s : AppState) :
    AppState × List Cmd :=
  let s1 := match readback with
    | some t => { s with currentTick := t }
    | none => s
  let s2 := { s1 with isPlaying := false }
  let s3 := updateTimelineStep ui s2
  ({ s3 with graph := setAudioState s3.graph .paused, timerArmed := true },
   [Cmd.pause, Cmd.setAudio .paused, Cmd.armTimer])

/-- `stopTrack()` (lines 506-546): issue `pause()`, reset `currentTick` to
0, re-seek the engine to 0 (the ended-state recovery sequence
stop/reset/reload/seek is collapsed to its net effect, a seek to 0, since
the engine's internals are outside this controller), set mode Stopped, run
an `updateTimeline()` pass, set the audio state to `stopped`, stop the UI
loop and clear the low-power timer without waking audio. -/
def stopTrackF (ui : EngineResp) (s : AppState) : AppState × List Cmd :=
  let s1 := { s with currentTick := 0, isPlaying := false }
  let s2 := updateTimelineStep ui s1
  ({ s2 with graph := setAudioState s2.graph .stopped, timerArmed := false },
   [Cmd.pause, Cmd.seek 0, Cmd.setAudio .stopped, Cmd.clearTimer])

/-- `rewindToBeginning()` (lines 559-577): no-op when no track is active;
otherwise seek the synth and the adapter to 0, reset `currentTick` and run
an `updateTimeline()` pass.  The transport mode is not changed. -/
def rewindToBeginningF (ui : EngineResp) (s : AppState) : AppState × List Cmd :=
  if s.currentIndex = -1 then (s, [])
  else
    (updateTimelineStep ui { s with currentTick := 0 },
     [Cmd.seek 0, Cmd.seek 0])

/-- `loadTrack(index)` (lines 774-816): no-op when the index is out of
range; otherwise set the active index, pause the engine, reset the timing
state to defaults, parse the PPQ header field, load the bytes into the
player, adopt the queried total/tempo (`|| 0` and `|| default` before
`updateFromSynth`), and run an `updateTimeline()` pass. -/
def loadTrackF (index : ℤ) (p : LoadResp) (s : AppState) : AppState × List Cmd :=
  if index < 0 ∨ (s.trackCount : ℤ) ≤ index then (s, [])
  else
    let s1 := { s with currentIndex := index }
    let s2 := { s1 with currentTick := 0, totalTicks := 0,
                        tempoUsPerQuarter := DEFAULT_TEMPO_US_PER_QUARTER,
                        ppq := DEFAULT_PPQ }
    let s3 := { s2 with ppq := parsePpqFromSmfHeader p.bytes s2.ppq }
    let s4 := updateFromSynth s3 (some (p.total.getD 0))
                (some (p.tempo.getD DEFAULT_TEMPO_US_PER_QUARTER))
    (updateTimelineStep p.ui s4, [Cmd.pause, Cmd.loadMidi index])

/-- `getNextIndexForPlayer()` (lines 280-288): the next index on automatic
end-of-track advance, or `none` when stopping.  Single-track playlists are
handled by the caller (`onEnded`). -/
def getNextIndexForPlayer (len : ℕ) (currentIndex : ℤ)
    (loopOn autoplay : Bool) : Option ℤ :=
  if len = 0 then none
  else if len = 1 then none
  else if loopOn then some ((currentIndex + 1) % (len : ℤ))
  else if autoplay then
    (if currentIndex < (len : ℤ) - 1 then some (currentIndex + 1) else none)
  else none

/-- `onEnded()` (lines 436-461): leave Playing mode; a single-entry playlist
restarts in place when Loop is on (seek 0, then `playTrack()`, no reload)
and stops otherwise; longer playlists consult `getNextIndexForPlayer` and
either load-and-play the chosen index or stop. -/
def onEndedF (p : LoadResp) (stopUi : EngineResp) (s : AppState) :
    AppState × List Cmd :=
  let s1 := { s with isPlaying := false }
  if s1.trackCount = 1 then
    if s1.loopOn then
      let s2 := { s1 with currentTick := 0 }
      let pr := playTrackF s2
      (pr.1, Cmd.seek 0 :: pr.2)
    else stopTrackF stopUi s1
  else
    match getNextIndexForPlayer s1.trackCount s1.currentIndex s1.loopOn s1.autoplay with
    | some j =>
      let lr := loadTrackF j p s1
      let pr := playTrackF lr.1
      (pr.1, lr.2 ++ pr.2)
    | none => stopTrackF stopUi s1

/-- `checkForTrackEnd(context)` (lines 334-349), as invoked from the
heartbeat callback and the UI loop: no-op unless mode is Playing; an end is
declared when `totalTicks > 0 && currentTick >= totalTicks - 1`, or when
the engine reports that its player is not playing (`synthStopped`). -/
def checkForTrackEndF (synthStopped : Bool) (p : LoadResp) (stopUi : EngineResp)
    (s : AppState) : AppState × List Cmd :=
  if s.isPlaying = false then (s, [])
  else if (0 < s.totalTicks ∧ s.totalTicks - 1 ≤ s.currentTick) ∨ synthStopped = true then
    onEndedF p stopUi s
  else (s, [])

/-- `togglePlayPause()` (lines 549-556): pause when playing; otherwise, when
no track is active and the playlist is non-empty, load index 0 first, then
`playTrack()`. -/
def togglePlayPauseF (readback : Option ℕ) (pui : EngineResp) (lp : LoadResp)
    (s : AppState) : AppState × List Cmd :=
  if s.isPlaying then pauseTrackF readback pui s
  else if s.currentIndex = -1 ∧ 0 < s.trackCount then
    let lr := loadTrackF 0 lp s
    let pr := playTrackF lr.1
    (pr.1, lr.2 ++ pr.2)
  else playTrackF s

/-- The seek-slider input handler (lines 850-866): only when
`totalTicks > 0`, compute
`targetTicks = Math.floor((value / SEEK_SLIDER_MAX) * totalTicks)`, write it
to `currentTick`, forward it to the adapter, and run an `updateTimeline()`
pass.  The handler never reads the transport mode. -/
def seekSliderF (v : ℕ) (ui : EngineResp) (s : AppState) : AppState × List Cmd :=
  if 0 < s.totalTicks then
    let targetTicks : ℕ :=
      (⌊((v : ℚ) / (SEEK_SLIDER_MAX : ℚ)) * (s.totalTicks : ℚ)⌋).toNat
    let s1 := { s with currentTick := targetTicks }
    (updateTimelineStep ui s1, [Cmd.seek targetTicks])
  else (s, [])

/-- The `schedulePauseLowPower` timeout firing (lines 395-402): when the
timer is still pending and the transport is not playing, apply the
`lowPower` audio state (heartbeat off, output off, graph suspended). -/
def timerFireF (s : AppState) : AppState × List Cmd :=
  if s.timerArmed then
    let s1 := { s with timerArmed := false }
    if s1.isPlaying = false then
      ({ s1 with graph := setAudioState s1.graph .lowPower }, [Cmd.setAudio .lowPower])
    else (s1, [])
  else (s, [])

/-- A transport operation together with the engine responses it consumes. -/
inductive Op where
  | play
  | pause (readback : Option ℕ) (ui : EngineResp)
  | stop (ui : EngineResp)
  | toggle (readback : Option ℕ) (pui : EngineResp) (lp : LoadResp)
  | seekSlider (v : ℕ) (ui : EngineResp)
  | rewind (ui : EngineResp)
  | load (index : ℤ) (p : LoadResp)
  | uiTick (ui : EngineResp)
  | endCheck (synthStopped : Bool) (p : LoadResp) (stopUi : EngineResp)
  | timerFire
  deriving DecidableEq

/-- Dispatch one operation. -/
def stepOp (s : AppState) : Op → AppState × List Cmd
  | .play => playTrackF s
  | .pause rb ui => pauseTrackF rb ui s
  | .stop ui => stopTrackF ui s
  | .toggle rb pui lp => togglePlayPauseF rb pui lp s
  | .seekSlider v ui => seekSliderF v ui s
  | .rewind ui => rewindToBeginningF ui s
  | .load i p => loadTrackF i p s
  | .uiTick ui => (updateTimelineStep ui s, [])
  | .endCheck st p sui => checkForTrackEndF st p sui s
  | .timerFire => timerFireF s

/-- Run a sequence of transport operations. -/
def runOps (s : AppState) : List Op → AppState
  | [] => s
  | op :: rest => runOps (stepOp s op).1 rest

/-! ## Bounded engine responses

The invariant `currentTick ≤ totalTicks` can only be meaningful relative to
the values the engine reports: the app stores engine-reported ticks without
clamping.  `okRespB B` says a response stays within a track length `B`
(ticks at most `B`, reported totals equal to `B`); `okOpB B` extends this to
the responses carried by one operation and bounds the seek slider by its
DOM range. -/

/-- A tick response bounded by the track length. -/
def okTickB (B : ℕ) : Option ℕ → Bool
  | some t => decide (t ≤ B)
  | none => true

/-- A total-ticks response that reports the track length. -/
def okTotalB (B : ℕ) : Option ℕ → Bool
  | some v => decide (v = B)
  | none => true

/-- An `updateTimeline` response triple within the track length. -/
def okRespB (B : ℕ) (r : EngineResp) : Bool :=
  okTickB B r.tick && okTotalB B r.total

/-- A `loadTrack` response set within the track length. -/
def okLoadB (B : ℕ) (p : LoadResp) : Bool :=
  okTotalB B p.total && okRespB B p.ui

/-- All responses carried by one operation are within the track length, and
a slider value is within its DOM range `0..SEEK_SLIDER_MAX`. -/
def okOpB (B : ℕ) : Op → Bool
  | .play => true
  | .pause rb ui => okTickB B rb && okRespB B ui
  | .stop ui => okRespB B ui
  | .toggle rb pui lp => okTickB B rb && okRespB B pui && okLoadB B lp
  | .seekSlider v ui => decide (v ≤ SEEK_SLIDER_MAX) && okRespB B ui
  | .rewind ui => okRespB B ui
  | .load _ p => okLoadB B p
  | .uiTick ui => okRespB B ui
  | .endCheck _ p sui => okLoadB B p && okRespB B sui
  | .timerFire => true

/-- The timing invariant relative to a track length `B`: the playhead never
exceeds `B` and the stored total is either still unknown (0) or equal to
`B`.  It implies `currentTick ≤ totalTicks` whenever `totalTicks > 0`. -/
def TickInv (B : ℕ) (s : AppState) : Prop :=
  s.currentTick ≤ B ∧ (s.totalTicks = 0 ∨ s.totalTicks = B)

/-! ## Interleaving model for awaited queries (claim about stale results)

`updateTimeline` (lines 355-392) awaits
`safeSynthCall(retrievePlayerCurrentTick)` while playing.  To reason about
an operation that runs between the issue of that query and the resolution
of its promise, the pass is split into its two halves around the `await`.
`ConcState` is the projection of the app state that these halves touch,
plus the in-flight query: `pending = some res` records an issued query
whose eventual result is `res` (`none` inside = the call will fail and
`safeSynthCall` will return null). -/

/-- State visible to the split `updateTimeline`: transport mode, suppress
guard, playhead, and the in-flight tick query. -/
structure ConcState where
  isPlaying : Bool
  suppressFirstSynthRead : Bool
  currentTick : ℕ
  pending : Option (Option ℕ)
  deriving DecidableEq

/-- First half of `updateTimeline`: the mode test and suppress guard happen
before the `await`; when playing and not suppressing, the tick query is
issued. -/
def updateTimelineIssue (engineResult : Option ℕ) (s : ConcState) : ConcState :=
  if s.isPlaying then
    if s.suppressFirstSynthRead then { s with suppressFirstSynthRead := false }
    else { s with pending := some engineResult }
  else s

/-- Second half of `updateTimeline`: the `await` resolves and
`if (tick !== null) timing.currentTick = tick` runs.  The only guard is the
null test; neither the transport mode nor the position is re-validated. -/
def updateTimelineResolve (s : ConcState) : ConcState :=
  match s.pending with
  | some (some t) => { s with currentTick := t, pending := none }
  | some none => { s with pending := none }
  | none => s

/-- The effect of `stopTrack()` on this projection (mode to Stopped,
playhead reset to 0).  The in-flight query is not cancelled: nothing in the
source tracks or aborts it. -/
def stopDuringQuery (s : ConcState) : ConcState :=
  { s with isPlaying := false, currentTick := 0 }

/-- A playing state with the playhead at tick 5 and no query in flight. -/
def concPlaying : ConcState :=
  { isPlaying := true, suppressFirstSynthRead := false, currentTick := 5,
    pending := none }

/-! ## Concrete instances used by counterexamples and witnesses -/

/-- An `updateTimeline` response triple with every query failing. -/
def noResp : EngineResp := { tick := none, total := none, tempo := none }

/-- A `loadTrack` response set with empty bytes and failing queries. -/
def noLoad : LoadResp := { bytes := [], total := none, tempo := none, ui := noResp }

/-- A playing state on a two-entry playlist with Loop on, at index 0 of a
100-tick track. -/
def csTwo : AppState :=
  { currentTick := 99, totalTicks := 100, tempoUsPerQuarter := 500000,
    ppq := 480, isPlaying := true, suppressFirstSynthRead := false,
    currentIndex := 0, trackCount := 2, loopOn := true, autoplay := false,
    timerArmed := false,
    graph := { heartbeatConnected := true, mainNodeConnected := true,
               suspended := false } }

/-- The app's initial state with one playlist entry added: no track active
(`currentIndex = -1`), Stopped, Autoplay on (its initial value), Loop off. -/
def initialOneTrack : AppState :=
  { currentTick := 0, totalTicks := 0, tempoUsPerQuarter := 500000,
    ppq := 480, isPlaying := false, suppressFirstSynthRead := false,
    currentIndex := -1, trackCount := 1, loopOn := false, autoplay := true,
    timerArmed := false,
    graph := { heartbeatConnected := true, mainNodeConnected := true,
               suspended := false } }

/-- A state paused at tick 40 of a 100-tick track whose low-power timeout
has fired: timer disarmed is not yet the case (armed), graph suspended. -/
def pausedLowPower : AppState :=
  { currentTick := 40, totalTicks := 100, tempoUsPerQuarter := 500000,
    ppq := 480, isPlaying := false, suppressFirstSynthRead := false,
    currentIndex := 0, trackCount := 1, loopOn := false, autoplay := true,
    timerArmed := true,
    graph := { heartbeatConnected := false, mainNodeConnected := false,
               suspended := true } }

/-- A `loadTrack` response set for a 100-tick track. -/
def cxLoad : LoadResp :=
  { bytes := [], total := some 100, tempo := none, ui := noResp }

/-- Load the only track (100 ticks), play it, let one UI pass consume the
suppress guard, then let a UI pass read an engine tick of 150 — beyond the
track length. -/
def cxOps : List Op :=
  [Op.load 0 cxLoad, Op.play, Op.uiTick noResp,
   Op.uiTick { tick := some 150, total := none, tempo := none }]

/-- A paused state on a 4-tick track, for exercising the seek slider. -/
def csSeek : AppState :=
  { currentTick := 3, totalTicks := 4, tempoUsPerQuarter := 500000,
    ppq := 480, isPlaying := false, suppressFirstSynthRead := false,
    currentIndex := 0, trackCount := 1, loopOn := false, autoplay := true,
    timerArmed := false,
    graph := { heartbeatConnected := false, mainNodeConnected := true,
               suspended := false } }

/-! # Theorems -/

/-! ## Projection lemmas for the transport machine -/

/-- `updateFromSynth` changes only `totalTicks` and `tempoUsPerQuarter`. -/
theorem updateFromSynth_keeps (s : AppState) (tot te : Option ℕ) :
    (updateFromSynth s tot te).currentTick = s.currentTick ∧
    (updateFromSynth s tot te).isPlaying = s.isPlaying ∧
    (updateFromSynth s tot te).suppressFirstSynthRead = s.suppressFirstSynthRead ∧
    (updateFromSynth s tot te).currentIndex = s.currentIndex ∧
    (updateFromSynth s tot te).trackCount = s.trackCount ∧
    (updateFromSynth s tot te).loopOn = s.loopOn ∧
    (updateFromSynth s tot te).autoplay = s.autoplay ∧
    (updateFromSynth s tot te).timerArmed = s.timerArmed ∧
    (updateFromSynth s tot te).graph = s.graph ∧
    (updateFromSynth s tot te).ppq = s.ppq := by
  unfold updateFromSynth
  cases tot <;> cases te <;> simp

/-- The playhead-sync half of `updateTimeline` changes only `currentTick`
and `suppressFirstSynthRead`. -/
theorem utTickPart_keeps (r : EngineResp) (s : AppState) :
    (utTickPart r s).totalTicks = s.totalTicks ∧
    (utTickPart r s).isPlaying = s.isPlaying ∧
    (utTickPart r s).currentIndex = s.currentIndex ∧
    (utTickPart r s).trackCount = s.trackCount ∧
    (utTickPart r s).loopOn = s.loopOn ∧
    (utTickPart r s).autoplay = s.autoplay ∧
    (utTickPart r s).timerArmed = s.timerArmed ∧
    (utTickPart r s).graph = s.graph ∧
    (utTickPart r s).tempoUsPerQuarter = s.tempoUsPerQuarter ∧
    (utTickPart r s).ppq = s.ppq := by
  unfold utTickPart
  by_cases hp : s.isPlaying <;> by_cases hs : s.suppressFirstSynthRead <;>
    cases r.tick <;> simp [hp, hs]

/-- While not playing, the playhead-sync half does nothing. -/
theorem utTickPart_notPlaying (r : EngineResp) (s : AppState)
    (h : s.isPlaying = false) : utTickPart r s = s := by
  unfold utTickPart
  simp [h]

/-- An `updateTimeline` pass changes none of the transport flags, and its
playhead is the one of the tick-sync half. -/
theorem updateTimelineStep_keeps (r : EngineResp) (s : AppState) :
    (updateTimelineStep r s).currentTick = (utTickPart r s).currentTick ∧
    (updateTimelineStep r s).isPlaying = s.isPlaying ∧
    (updateTimelineStep r s).currentIndex = s.currentIndex ∧
    (updateTimelineStep r s).trackCount = s.trackCount ∧
    (updateTimelineStep r s).loopOn = s.loopOn ∧
    (updateTimelineStep r s).autoplay = s.autoplay ∧
    (updateTimelineStep r s).timerArmed = s.timerArmed ∧
    (updateTimelineStep r s).graph = s.graph := by
  unfold updateTimelineStep
  split
  · have hu := updateFromSynth_keeps (utTickPart r s) r.total r.tempo
    have hk := utTickPart_keeps r s
    tauto
  · have hk := utTickPart_keeps r s
    tauto

/-- While not playing, an `updateTimeline` pass leaves the playhead
unchanged. -/
theorem updateTimelineStep_notPlaying_currentTick (r : EngineResp)
    (s : AppState) (h : s.isPlaying = false) :
    (updateTimelineStep r s).currentTick = s.currentTick := by
  have := (updateTimelineStep_keeps r s).1
  rw [this, utTickPart_notPlaying r s h]

/-- Unfolding equation for `playTrack()` when a track is active. -/
theorem playTrackF_pos (s : AppState) (h : 0 ≤ s.currentIndex) :
    playTrackF s =
      ({ s with suppressFirstSynthRead := true, isPlaying := true,
                graph := setAudioState (setAudioState s.graph .playing) .wakeUp,
                timerArmed := false },
       [Cmd.seek s.currentTick, Cmd.play, Cmd.setAudio .playing,
        Cmd.clearTimer, Cmd.setAudio .wakeUp]) := by
  unfold playTrackF
  rw [if_neg (by omega)]

/-- Facts about an in-range `loadTrack(index)`. -/
theorem loadTrackF_inRange (index : ℤ) (p : LoadResp) (s : AppState)
    (h0 : 0 ≤ index) (h1 : index < (s.trackCount : ℤ)) :
    (loadTrackF index p s).2 = [Cmd.pause, Cmd.loadMidi index] ∧
    (loadTrackF index p s).1.currentIndex = index ∧
    (loadTrackF index p s).1.isPlaying = s.isPlaying ∧
    (loadTrackF index p s).1.trackCount = s.trackCount ∧
    (loadTrackF index p s).1.loopOn = s.loopOn ∧
    (loadTrackF index p s).1.autoplay = s.autoplay ∧
    (loadTrackF index p s).1.timerArmed = s.timerArmed ∧
    (loadTrackF index p s).1.graph = s.graph ∧
    (s.isPlaying = false → (loadTrackF index p s).1.currentTick = 0) := by
  unfold loadTrackF
  rw [if_neg (by omega)]
  dsimp only
  set s4 := updateFromSynth
    { s with currentIndex := index, currentTick := 0, totalTicks := 0,
             tempoUsPerQuarter := DEFAULT_TEMPO_US_PER_QUARTER,
             ppq := parsePpqFromSmfHeader p.bytes DEFAULT_PPQ }
    (some (p.total.getD 0)) (some (p.tempo.getD DEFAULT_TEMPO_US_PER_QUARTER))
    with hs4
  have hu := updateFromSynth_keeps
    { s with currentIndex := index, currentTick := 0, totalTicks := 0,
             tempoUsPerQuarter := DEFAULT_TEMPO_US_PER_QUARTER,
             ppq := parsePpqFromSmfHeader p.bytes DEFAULT_PPQ }
    (some (p.total.getD 0)) (some (p.tempo.getD DEFAULT_TEMPO_US_PER_QUARTER))
  rw [← hs4] at hu
  have hk := updateTimelineStep_keeps p.ui s4
  refine ⟨rfl, ?_, ?_, ?_, ?_, ?_, ?_, ?_, ?_⟩
  · rw [hk.2.2.1]
    exact hu.2.2.2.1
  · rw [hk.2.1]
    exact hu.2.1
  · rw [hk.2.2.2.1]
    exact hu.2.2.2.2.1
  · rw [hk.2.2.2.2.1]
    exact hu.2.2.2.2.2.1
  · rw [hk.2.2.2.2.2.1]
    exact hu.2.2.2.2.2.2.1
  · rw [hk.2.2.2.2.2.2.1]
    exact hu.2.2.2.2.2.2.2.1
  · rw [hk.2.2.2.2.2.2.2]
    exact hu.2.2.2.2.2.2.2.2.1
  · intro hnp
    have hps : s4.isPlaying = false := by
      rw [hu.2.1]
      exact hnp
    rw [hk.1, utTickPart_notPlaying p.ui s4 hps]
    exact hu.1

/-- Facts about `stopTrack()`. -/
theorem stopTrackF_facts (ui : EngineResp) (s : AppState) :
    (stopTrackF ui s).2 =
      [Cmd.pause, Cmd.seek 0, Cmd.setAudio .stopped, Cmd.clearTimer] ∧
    (stopTrackF ui s).1.isPlaying = false ∧
    (stopTrackF ui s).1.currentTick = 0 ∧
    (stopTrackF ui s).1.timerArmed = false ∧
    (stopTrackF ui s).1.currentIndex = s.currentIndex := by
  unfold stopTrackF
  dsimp only
  set s1 : AppState := { s with currentTick := 0, isPlaying := false } with hs1
  have hk := updateTimelineStep_keeps ui s1
  have hct := updateTimelineStep_notPlaying_currentTick ui s1 (by rw [hs1])
  refine ⟨rfl, ?_, ?_, ?_, ?_⟩
  · simp [hk.2.1, hs1]
  · simp only [hct, hs1]
  · simp
  · simp [hk.2.2.1, hs1]

/-- Facts about `pauseTrack()`. -/
theorem pauseTrackF_facts (readback : Option ℕ) (ui : EngineResp) (s : AppState) :
    (pauseTrackF readback ui s).2 =
      [Cmd.pause, Cmd.setAudio .paused, Cmd.armTimer] ∧
    (pauseTrackF readback ui s).1.isPlaying = false ∧
    (pauseTrackF readback ui s).1.timerArmed = true ∧
    (pauseTrackF readback ui s).1.graph.heartbeatConnected = false := by
  refine ⟨rfl, ?_, rfl, rfl⟩
  unfold pauseTrackF
  cases readback with
  | none =>
    dsimp only
    rw [(updateTimelineStep_keeps ui _).2.1]
  | some t =>
    dsimp only
    rw [(updateTimelineStep_keeps ui _).2.1]

/-! ## Claim C5: time formatting -/

/-- Unfolding equation for `formatTimeStr` on a finite number. -/
theorem formatTimeStr_some (q : ℚ) :
    formatTimeStr (some q) =
      if 0 < jsSeconds q / 3600 then
        Nat.repr (jsSeconds q / 3600) ++ ":" ++
          pad2 (jsSeconds q % 3600 / 60) ++ ":" ++ pad2 (jsSeconds q % 60)
      else pad2 (jsSeconds q % 3600 / 60) ++ ":" ++ pad2 (jsSeconds q % 60) := rfl

/-- C5: `formatTimeStr` returns `H:MM:SS` (unpadded hours, two-digit
zero-padded minutes and seconds) for inputs of at least one hour, else
two-digit zero-padded `MM:SS`; non-finite or negative input formats as
"00:00"; in particular 3661 ↦ "1:01:01", 59 ↦ "00:59", -5 ↦ "00:00" and
NaN ↦ "00:00". -/
theorem spec_C5_theorem :
    formatTimeStr none = "00:00" ∧
    formatTimeStr (some (-5)) = "00:00" ∧
    formatTimeStr (some 59) = "00:59" ∧
    formatTimeStr (some 3661) = "1:01:01" ∧
    (∀ q : ℚ, q < 0 → formatTimeStr (some q) = "00:00") ∧
    (∀ q : ℚ, jsSeconds q < 3600 →
      formatTimeStr (some q) = pad2 (jsSeconds q / 60) ++ ":" ++ pad2 (jsSeconds q % 60)) ∧
    (∀ q : ℚ, 3600 ≤ jsSeconds q →
      formatTimeStr (some q) = Nat.repr (jsSeconds q / 3600) ++ ":" ++
        pad2 (jsSeconds q % 3600 / 60) ++ ":" ++ pad2 (jsSeconds q % 60)) ∧
    (∀ n : ℕ, n < 60 → (pad2 n).length = 2) := by
  refine ⟨by decide, by decide, by decide, by decide, ?_, ?_, ?_, by decide⟩
  · intro q hq
    have h1 : ⌊q⌋ < 0 := Int.floor_lt.mpr (by exact_mod_cast hq)
    have hs : jsSeconds q = 0 := by
      unfold jsSeconds
      omega
    rw [formatTimeStr_some, hs]
    decide
  · intro q hq
    rw [formatTimeStr_some, Nat.div_eq_of_lt hq, Nat.mod_eq_of_lt hq]
    simp
  · intro q hq
    have hpos : 0 < jsSeconds q / 3600 := Nat.div_pos hq (by norm_num)
    rw [formatTimeStr_some, if_pos hpos]

/-- Witness for C5: the negative-input clause applied at -1. -/
theorem spec_C5_witness :
    (-1 : ℚ) < 0 ∧ formatTimeStr (some (-1)) = "00:00" :=
  ⟨by norm_num, spec_C5_theorem.2.2.2.2.1 (-1) (by norm_num)⟩

/-! ## Claim C7: adapter query fallbacks -/

/-- C7 counterexample: the fallback is a fixed constant, not a
last-known-good value.  After a query that succeeded with 7 (the last known
good value), a failing query returns 0, while a last-known-good fallback
would return 7. -/
theorem spec_C7_counterexample :
    getTotalTicks (some 7) = 7 ∧ getTotalTicks none = 0 ∧
    lastKnownGoodFallback (getTotalTicks (some 7)) none = 7 ∧
    getTotalTicks none ≠ lastKnownGoodFallback (getTotalTicks (some 7)) none := by
  decide

/-- C7 (amended): `getCurrentTick`, `getTotalTicks` and `getTempo` never
propagate an engine failure to the caller (they are total functions of the
engine outcome); on failure each returns a fixed default (0 ticks, 0 ticks,
500000 µs/quarter) rather than a last-known-good value. -/
theorem spec_C7_theorem :
    (∀ v, getTotalTicks (some v) = v) ∧ getTotalTicks none = 0 ∧
    (∀ v, getCurrentTick (some v) = v) ∧ getCurrentTick none = 0 ∧
    (∀ v, getMidiTempoUsPerQuarter (some v) = v) ∧
    getMidiTempoUsPerQuarter none = 500000 :=
  ⟨fun _ => rfl, rfl, fun _ => rfl, rfl, fun _ => rfl, rfl⟩

/-! ## Claim C8: SMF header parsing -/

/-- C8: the resolution is parsed as a big-endian 16-bit field at byte
offset 12 behind a 4-byte magic check; on magic mismatch, a short buffer,
bit 15 set (SMPTE format) or a zero division, the resolution stays at (or
falls back to) the default 480, and the parse never raises; a PPQ-format
division `0 < raw < 0x8000` is adopted. -/
theorem spec_C8_theorem :
    (∀ bytes, headerMagic bytes ≠ some 0x4D546864 →
      parsePpqFromSmfHeader bytes DEFAULT_PPQ = DEFAULT_PPQ) ∧
    (∀ bytes, headerDivision bytes = none →
      parsePpqFromSmfHeader bytes DEFAULT_PPQ = DEFAULT_PPQ) ∧
    (∀ bytes raw, headerDivision bytes = some raw → 0x8000 ≤ raw →
      parsePpqFromSmfHeader bytes DEFAULT_PPQ = DEFAULT_PPQ) ∧
    (∀ bytes, headerDivision bytes = some 0 →
      parsePpqFromSmfHeader bytes DEFAULT_PPQ = DEFAULT_PPQ) ∧
    (∀ bytes raw, headerMagic bytes = some 0x4D546864 →
      headerDivision bytes = some raw → 0 < raw → raw < 0x8000 →
      parsePpqFromSmfHeader bytes DEFAULT_PPQ = raw) := by
  refine ⟨?_, ?_, ?_, ?_, ?_⟩
  · intro bytes h
    unfold parsePpqFromSmfHeader
    cases hm : headerMagic bytes with
    | none => rfl
    | some m =>
      have hne : ¬ (m = 0x4D546864) := fun hEq => h (by rw [hm, hEq])
      simp [hne]
  · intro bytes h
    unfold parsePpqFromSmfHeader
    cases hm : headerMagic bytes with
    | none => rfl
    | some m =>
      by_cases hEq : m = 0x4D546864
      · simp [hEq, h]
      · simp [hEq]
  · intro bytes raw h hbit
    unfold parsePpqFromSmfHeader
    cases hm : headerMagic bytes with
    | none => rfl
    | some m =>
      by_cases hEq : m = 0x4D546864
      · simp only [hEq, if_pos, h]
        rw [if_neg (by omega)]
      · simp [hEq]
  · intro bytes h
    unfold parsePpqFromSmfHeader
    cases hm : headerMagic bytes with
    | none => rfl
    | some m =>
      by_cases hEq : m = 0x4D546864
      · simp [hEq, h, DEFAULT_PPQ]
      · simp [hEq]
  · intro bytes raw hm hdiv hpos hbit
    unfold parsePpqFromSmfHeader
    rw [hm]
    simp [hdiv, hbit, hpos]

/-- Witness for C8: a malformed header (magic mismatch on four zero bytes)
leaves the resolution at the default 480. -/
theorem spec_C8_witness :
    headerMagic [0, 0, 0, 0] ≠ some 0x4D546864 ∧
    parsePpqFromSmfHeader [0, 0, 0, 0] DEFAULT_PPQ = DEFAULT_PPQ :=
  ⟨by decide, spec_C8_theorem.1 [0, 0, 0, 0] (by decide)⟩

/-! ## Claim C9: stale engine query results -/

/-- C9 counterexample: `updateTimeline` issues its tick query while
playing; `stopTrack` then runs (mode to Stopped, playhead reset to 0);
when the query resolves with tick 7, the stale result is applied to
`currentTick` even though the transport was stopped while the query was in
flight — the claim says such a result is never applied. -/
theorem spec_C9_counterexample :
    (updateTimelineResolve (stopDuringQuery
        (updateTimelineIssue (some 7) concPlaying))).isPlaying = false ∧
    (stopDuringQuery (updateTimelineIssue (some 7) concPlaying)).currentTick = 0 ∧
    (updateTimelineResolve (stopDuringQuery
        (updateTimelineIssue (some 7) concPlaying))).currentTick = 7 := by
  decide

/-- C9 (amended): operations that await an engine query validate the
transport mode before issuing the query and guard the resolved value
against null, but do not re-validate mode or position after the await:
a non-null result is applied to `currentTick` unconditionally, so a result
arriving after a concurrent state change (e.g. a stop) is applied. -/
theorem spec_C9_theorem :
    (∀ r s, s.isPlaying = false → updateTimelineIssue r s = s) ∧
    (∀ s, s.pending = some none →
      updateTimelineResolve s = { s with pending := none }) ∧
    (∀ s t, s.pending = some (some t) →
      (updateTimelineResolve s).currentTick = t ∧
      (updateTimelineResolve s).isPlaying = s.isPlaying) := by
  refine ⟨?_, ?_, ?_⟩
  · intro r s h
    simp [updateTimelineIssue, h]
  · intro s h
    unfold updateTimelineResolve
    rw [h]
  · intro s t h
    unfold updateTimelineResolve
    rw [h]
    exact ⟨rfl, rfl⟩

/-- Witness for C9 (amended): a stopped state with a resolved query value 7
in flight applies 7 to the playhead. -/
theorem spec_C9_witness :
    (updateTimelineResolve
      { isPlaying := false, suppressFirstSynthRead := false, currentTick := 0,
        pending := some (some 7) }).currentTick = 7 :=
  (spec_C9_theorem.2.2
    { isPlaying := false, suppressFirstSynthRead := false, currentTick := 0,
      pending := some (some 7) } 7 rfl).1

/-! ## Claim C10: adapter seek sanitisation -/

/-- C10 counterexample: `Number(x)` can also yield +Infinity (for example
for the argument `Infinity` or the string "1e999").  With a live synth, the
source then forwards `Math.max(0, Math.floor(Infinity)) = Infinity` to
`seekPlayer` — a value that is not an integer — so the claim's "the tick
position forwarded to the engine is always a non-negative integer" is
false at this input.  (The mirror is not reset: `Infinity === 0` is
false.) -/
theorem spec_C10_counterexample :
    (JSSynthPlayer.seek JSNum.posInf { hasSynth := true, currentTime := 9 }).2 =
      some JSTick.inf ∧
    JSTick.isFinite JSTick.inf = false ∧
    (JSSynthPlayer.seek JSNum.posInf
      { hasSynth := true, currentTime := 9 }).1.currentTime = 9 := by
  decide

/-- C10 (amended): `JSSynthPlayer.seek(x)` is a no-op when no synthesizer
exists; otherwise the value forwarded to the engine is exactly
`Math.max(0, Math.floor(Number(x) || 0))`, and the `_currentTime` mirror is
reset to 0 exactly when that value is the number 0.  For every finite
argument (including negative and fractional ones), for NaN and non-numeric
arguments, and for -Infinity, the forwarded value is a non-negative
integer; the one exception is +Infinity, which is forwarded as Infinity,
not an integer. -/
theorem spec_C10_theorem :
    (∀ x s, s.hasSynth = false → JSSynthPlayer.seek x s = (s, none)) ∧
    (∀ x s, s.hasSynth = true →
      (JSSynthPlayer.seek x s).2 = some (seekTick x) ∧
      ((JSSynthPlayer.seek x s).1.currentTime =
        if seekTick x = .fin 0 then 0 else s.currentTime) ∧
      (JSSynthPlayer.seek x s).1.hasSynth = s.hasSynth) ∧
    (∀ q : ℚ, seekTick (JSNum.num q) = JSTick.fin (jsMax0 ⌊q⌋) ∧
      0 ≤ jsMax0 ⌊q⌋) ∧
    seekTick JSNum.nan = JSTick.fin 0 ∧
    seekTick JSNum.negInf = JSTick.fin 0 ∧
    seekTick JSNum.posInf = JSTick.inf ∧
    seekTick (JSNum.num (-5)) = JSTick.fin 0 ∧
    seekTick (JSNum.num (7 / 2)) = JSTick.fin 3 ∧
    seekTick (JSNum.num 5) = JSTick.fin 5 := by
  refine ⟨?_, ?_, ?_, by decide, by decide, by decide, by decide, ?_, by decide⟩
  · intro x s h
    simp [JSSynthPlayer.seek, h]
  · intro x s h
    refine ⟨by simp [JSSynthPlayer.seek, h], ?_, by simp [JSSynthPlayer.seek, h]⟩
    simp [JSSynthPlayer.seek, h]
  · intro q
    refine ⟨rfl, ?_⟩
    unfold jsMax0
    split <;> omega
  · show seekTick (JSNum.num (7 / 2)) = JSTick.fin 3
    unfold seekTick jsMax0
    norm_num

/-- Witness for C10 (amended): the adapter seek applied to -Infinity with a
live synth forwards the integer 0, and with no synth it is a no-op. -/
theorem spec_C10_witness :
    (JSSynthPlayer.seek JSNum.negInf { hasSynth := true, currentTime := 9 }).2 =
      some (seekTick JSNum.negInf) ∧
    (JSSynthPlayer.seek JSNum.nan { hasSynth := false, currentTime := 9 }) =
      ({ hasSynth := false, currentTime := 9 }, none) :=
  ⟨(spec_C10_theorem.2.1 JSNum.negInf { hasSynth := true, currentTime := 9 } rfl).1,
   spec_C10_theorem.1 JSNum.nan { hasSynth := false, currentTime := 9 } rfl⟩

/-! ## Claim C2: end-of-track navigation policy -/

/-- On a playlist of at least two entries with Loop on, the next index
wraps, ignoring Autoplay. -/
theorem getNextIndexForPlayer_loop (len : ℕ) (idx : ℤ) (ap : Bool)
    (h : 2 ≤ len) :
    getNextIndexForPlayer len idx true ap = some ((idx + 1) % (len : ℤ)) := by
  have h0 : ¬ len = 0 := by omega
  have h1 : ¬ len = 1 := by omega
  unfold getNextIndexForPlayer
  simp [h0, h1]

/-- On a playlist of at least two entries with Loop off and Autoplay on,
the next index advances without wrapping, stopping at the last entry. -/
theorem getNextIndexForPlayer_autoplay (len : ℕ) (idx : ℤ) (h : 2 ≤ len) :
    getNextIndexForPlayer len idx false true =
      (if idx < (len : ℤ) - 1 then some (idx + 1) else none) := by
  have h0 : ¬ len = 0 := by omega
  have h1 : ¬ len = 1 := by omega
  unfold getNextIndexForPlayer
  simp [h0, h1]

/-- On a playlist of at least two entries with Loop and Autoplay both off,
the policy stops. -/
theorem getNextIndexForPlayer_stop (len : ℕ) (idx : ℤ) (h : 2 ≤ len) :
    getNextIndexForPlayer len idx false false = none := by
  have h0 : ¬ len = 0 := by omega
  have h1 : ¬ len = 1 := by omega
  unfold getNextIndexForPlayer
  simp [h0, h1]

/-- C2: on declared end of track while playing, for every playlist length,
valid current index and flag combination: a single-entry playlist with Loop
on restarts the same track (seek to 0, then play) without reissuing a load,
and with Loop off it stops; a multi-entry playlist with Loop on advances to
`(current + 1) mod length` regardless of Autoplay; with Loop off and
Autoplay on it advances to `current + 1` unless current is last, in which
case it stops (no wrap); with Loop and Autoplay both off it stops. -/
theorem spec_C2_theorem (s : AppState) (p : LoadResp) (sui : EngineResp)
    (h0 : 0 ≤ s.currentIndex) (h1 : s.currentIndex < (s.trackCount : ℤ)) :
    (s.trackCount = 1 → s.loopOn = true →
      (onEndedF p sui s).1.isPlaying = true ∧
      (onEndedF p sui s).1.currentIndex = s.currentIndex ∧
      (onEndedF p sui s).1.currentTick = 0 ∧
      (onEndedF p sui s).2 =
        [Cmd.seek 0, Cmd.seek 0, Cmd.play, Cmd.setAudio .playing,
         Cmd.clearTimer, Cmd.setAudio .wakeUp] ∧
      (∀ i, Cmd.loadMidi i ∉ (onEndedF p sui s).2)) ∧
    (s.trackCount = 1 → s.loopOn = false →
      (onEndedF p sui s).1.isPlaying = false ∧
      Cmd.play ∉ (onEndedF p sui s).2) ∧
    (2 ≤ s.trackCount → s.loopOn = true →
      getNextIndexForPlayer s.trackCount s.currentIndex s.loopOn s.autoplay =
        some ((s.currentIndex + 1) % (s.trackCount : ℤ)) ∧
      (onEndedF p sui s).1.isPlaying = true ∧
      (onEndedF p sui s).1.currentIndex =
        (s.currentIndex + 1) % (s.trackCount : ℤ) ∧
      Cmd.loadMidi ((s.currentIndex + 1) % (s.trackCount : ℤ)) ∈ (onEndedF p sui s).2 ∧
      Cmd.play ∈ (onEndedF p sui s).2) ∧
    (2 ≤ s.trackCount → s.loopOn = false → s.autoplay = true →
      s.currentIndex < (s.trackCount : ℤ) - 1 →
      (onEndedF p sui s).1.isPlaying = true ∧
      (onEndedF p sui s).1.currentIndex = s.currentIndex + 1 ∧
      Cmd.loadMidi (s.currentIndex + 1) ∈ (onEndedF p sui s).2 ∧
      Cmd.play ∈ (onEndedF p sui s).2) ∧
    (2 ≤ s.trackCount → s.loopOn = false → s.autoplay = true →
      s.currentIndex = (s.trackCount : ℤ) - 1 →
      (onEndedF p sui s).1.isPlaying = false ∧
      Cmd.play ∉ (onEndedF p sui s).2) ∧
    (2 ≤ s.trackCount → s.loopOn = false → s.autoplay = false →
      (onEndedF p sui s).1.isPlaying = false ∧
      Cmd.play ∉ (onEndedF p sui s).2) := by
  refine ⟨?_, ?_, ?_, ?_, ?_, ?_⟩
  · intro hc hl
    unfold onEndedF
    dsimp only
    rw [if_pos hc, if_pos hl]
    rw [playTrackF_pos { s with isPlaying := false, currentTick := 0 } h0]
    refine ⟨rfl, rfl, rfl, rfl, ?_⟩
    intro i
    simp
  · intro hc hl
    unfold onEndedF
    dsimp only
    rw [if_pos hc, if_neg (by simp [hl])]
    have hf := stopTrackF_facts sui { s with isPlaying := false }
    exact ⟨hf.2.1, by rw [hf.1]; simp⟩
  · intro hc hl
    have hlen : (0:ℤ) < (s.trackCount : ℤ) := by exact_mod_cast by omega
    have hg : getNextIndexForPlayer s.trackCount s.currentIndex s.loopOn s.autoplay =
        some ((s.currentIndex + 1) % (s.trackCount : ℤ)) := by
      rw [hl]
      exact getNextIndexForPlayer_loop s.trackCount s.currentIndex s.autoplay hc
    refine ⟨hg, ?_⟩
    have hj0 : 0 ≤ (s.currentIndex + 1) % (s.trackCount : ℤ) :=
      Int.emod_nonneg _ (by omega)
    have hjlt : (s.currentIndex + 1) % (s.trackCount : ℤ) < (s.trackCount : ℤ) :=
      Int.emod_lt_of_pos _ hlen
    unfold onEndedF
    dsimp only
    rw [if_neg (by omega), hg]
    dsimp only
    obtain ⟨hl2, hlidx, _, _, _, _, _, _, _⟩ :=
      loadTrackF_inRange ((s.currentIndex + 1) % (s.trackCount : ℤ)) p
        { s with isPlaying := false } hj0 hjlt
    set sl := (loadTrackF ((s.currentIndex + 1) % (s.trackCount : ℤ)) p
        { s with isPlaying := false }).1 with hsl
    rw [playTrackF_pos sl (by rw [hlidx]; exact hj0)]
    refine ⟨rfl, by simpa using hlidx, ?_, ?_⟩
    · rw [hl2]
      simp
    · simp
  · intro hc hl ha hlast
    have hg : getNextIndexForPlayer s.trackCount s.currentIndex s.loopOn s.autoplay =
        some (s.currentIndex + 1) := by
      rw [hl, ha, getNextIndexForPlayer_autoplay s.trackCount s.currentIndex hc,
        if_pos hlast]
    have hj0 : 0 ≤ s.currentIndex + 1 := by omega
    have hjlt : s.currentIndex + 1 < (s.trackCount : ℤ) := by omega
    unfold onEndedF
    dsimp only
    rw [if_neg (by omega), hg]
    dsimp only
    obtain ⟨hl2, hlidx, _, _, _, _, _, _, _⟩ :=
      loadTrackF_inRange (s.currentIndex + 1) p { s with isPlaying := false } hj0 hjlt
    set sl := (loadTrackF (s.currentIndex + 1) p { s with isPlaying := false }).1
      with hsl
    rw [playTrackF_pos sl (by rw [hlidx]; exact hj0)]
    refine ⟨rfl, by simpa using hlidx, ?_, ?_⟩
    · rw [hl2]
      simp
    · simp
  · intro hc hl ha hlast
    have hg : getNextIndexForPlayer s.trackCount s.currentIndex s.loopOn s.autoplay = none := by
      rw [hl, ha, getNextIndexForPlayer_autoplay s.trackCount s.currentIndex hc,
        if_neg (by omega)]
    unfold onEndedF
    dsimp only
    rw [if_neg (by omega), hg]
    dsimp only
    have hf := stopTrackF_facts sui { s with isPlaying := false }
    exact ⟨hf.2.1, by rw [hf.1]; simp⟩
  · intro hc hl ha
    have hg : getNextIndexForPlayer s.trackCount s.currentIndex s.loopOn s.autoplay = none := by
      rw [hl, ha, getNextIndexForPlayer_stop s.trackCount s.currentIndex hc]
    unfold onEndedF
    dsimp only
    rw [if_neg (by omega), hg]
    dsimp only
    have hf := stopTrackF_facts sui { s with isPlaying := false }
    exact ⟨hf.2.1, by rw [hf.1]; simp⟩

/-- Witness for C2: on the two-entry Loop-on playlist `csTwo`, the end
handler advances from index 0 to index `(0 + 1) mod 2` and issues a play. -/
theorem spec_C2_witness :
    (onEndedF noLoad noResp csTwo).1.currentIndex =
      (csTwo.currentIndex + 1) % (csTwo.trackCount : ℤ) ∧
    Cmd.play ∈ (onEndedF noLoad noResp csTwo).2 := by
  have h := spec_C2_theorem csTwo noLoad noResp (by decide) (by decide)
  have h3 := h.2.2.1 (by decide) rfl
  exact ⟨h3.2.2.1, h3.2.2.2.2⟩

/-! ## Claim C3: seek-then-play ordering, implicit first load -/

/-- C3: whenever a play invocation issues the engine `play()` (that is,
whenever a track is active), the one and only adapter command issued before
it is a seek to the authoritative `currentTick`; with no active track
nothing is issued; and when no track is active while the playlist is
non-empty, `togglePlayPause` first loads index 0 and then plays, still
seeking (to tick 0) before playing. -/
theorem spec_C3_theorem (s : AppState) (rb : Option ℕ) (pui : EngineResp)
    (lp : LoadResp) :
    (0 ≤ s.currentIndex →
      (playTrackF s).2 =
        [Cmd.seek s.currentTick, Cmd.play, Cmd.setAudio .playing,
         Cmd.clearTimer, Cmd.setAudio .wakeUp]) ∧
    (s.currentIndex < 0 → (playTrackF s).2 = []) ∧
    (s.isPlaying = false → s.currentIndex = -1 → 0 < s.trackCount →
      (togglePlayPauseF rb pui lp s).2 =
        [Cmd.pause, Cmd.loadMidi 0, Cmd.seek 0, Cmd.play,
         Cmd.setAudio .playing, Cmd.clearTimer, Cmd.setAudio .wakeUp]) := by
  refine ⟨?_, ?_, ?_⟩
  · intro h
    rw [playTrackF_pos s h]
  · intro h
    unfold playTrackF
    rw [if_pos h]
  · intro h1 h2 h3
    unfold togglePlayPauseF
    rw [if_neg (by simp [h1]), if_pos ⟨h2, by exact_mod_cast h3⟩]
    dsimp only
    obtain ⟨hl2, hlidx, _, _, _, _, _, _, hltick⟩ :=
      loadTrackF_inRange 0 lp s (by omega) (by exact_mod_cast h3)
    set sl := (loadTrackF 0 lp s).1 with hsl
    rw [playTrackF_pos sl (by rw [hlidx]), hl2, hltick h1]
    rfl

/-- Witness for C3: from the initial one-track state, toggling play issues
load-of-0 then seek-then-play. -/
theorem spec_C3_witness :
    (togglePlayPauseF none noResp noLoad initialOneTrack).2 =
      [Cmd.pause, Cmd.loadMidi 0, Cmd.seek 0, Cmd.play,
       Cmd.setAudio .playing, Cmd.clearTimer, Cmd.setAudio .wakeUp] :=
  (spec_C3_theorem initialOneTrack none noResp noLoad).2.2 rfl rfl (by decide)

/-! ## Claim C4: low-power pause timer and resume ordering -/

/-- C4 counterexample: a transition to Playing from the suspended low-power
state `pausedLowPower` issues the engine `play` with only the seek before
it: neither the low-power-timer cancellation nor any suspension-reversing
audio-state command (`wakeUp` or `playing`) precedes the play command, so
the claimed cancel-and-reverse-before-play ordering does not hold. -/
theorem spec_C4_counterexample :
    Cmd.play ∈ (playTrackF pausedLowPower).2 ∧
    (playTrackF pausedLowPower).2.takeWhile (fun c => c != Cmd.play) =
      [Cmd.seek 40] ∧
    Cmd.clearTimer ∉
      (playTrackF pausedLowPower).2.takeWhile (fun c => c != Cmd.play) ∧
    Cmd.setAudio AudioMode.wakeUp ∉
      (playTrackF pausedLowPower).2.takeWhile (fun c => c != Cmd.play) ∧
    Cmd.setAudio AudioMode.playing ∉
      (playTrackF pausedLowPower).2.takeWhile (fun c => c != Cmd.play) := by
  decide

/-- C4 (amended): the 30-second timer (`PAUSE_LOW_POWER_MS`) is armed on
entering Paused; if the transport is still not playing when it fires, the
heartbeat and main output connections are disabled and the audio graph is
suspended (and a firing while playing changes nothing); and every
transition to Playing cancels the timer and reverses the suspension within
the same play operation — but these occur after the `play` command has been
issued to the engine (the adapter's `play` itself resumes the audio
context), not before it. -/
theorem spec_C4_theorem :
    PAUSE_LOW_POWER_MS = 30000 ∧
    (∀ rb ui s, (pauseTrackF rb ui s).1.timerArmed = true ∧
      (pauseTrackF rb ui s).1.isPlaying = false) ∧
    (∀ s : AppState, s.timerArmed = true → s.isPlaying = false →
      (timerFireF s).1.graph.heartbeatConnected = false ∧
      (timerFireF s).1.graph.mainNodeConnected = false ∧
      (timerFireF s).1.graph.suspended = true ∧
      (timerFireF s).2 = [Cmd.setAudio .lowPower]) ∧
    (∀ s : AppState, s.isPlaying = true →
      (timerFireF s).1.graph = s.graph ∧ (timerFireF s).2 = []) ∧
    (∀ s : AppState, 0 ≤ s.currentIndex →
      (playTrackF s).1.timerArmed = false ∧
      (playTrackF s).1.graph.heartbeatConnected = true ∧
      (playTrackF s).1.graph.mainNodeConnected = true ∧
      (playTrackF s).1.graph.suspended = false ∧
      (playTrackF s).2 =
        [Cmd.seek s.currentTick, Cmd.play, Cmd.setAudio .playing,
         Cmd.clearTimer, Cmd.setAudio .wakeUp]) := by
  refine ⟨rfl, ?_, ?_, ?_, ?_⟩
  · intro rb ui s
    exact ⟨(pauseTrackF_facts rb ui s).2.2.1, (pauseTrackF_facts rb ui s).2.1⟩
  · intro s h1 h2
    unfold timerFireF
    rw [if_pos h1]
    dsimp only
    rw [if_pos h2]
    exact ⟨rfl, rfl, rfl, rfl⟩
  · intro s h
    unfold timerFireF
    by_cases harm : s.timerArmed = true
    · rw [if_pos harm]
      dsimp only
      rw [if_neg (by simp [h])]
      exact ⟨rfl, rfl⟩
    · rw [if_neg harm]
      exact ⟨rfl, rfl⟩
  · intro s h
    rw [playTrackF_pos s h]
    exact ⟨rfl, rfl, rfl, rfl, rfl⟩

/-- Witness for C4 (amended): concrete instances of the timer-fire clause
and the play clause. -/
theorem spec_C4_witness :
    (timerFireF pausedLowPower).1.graph.suspended = true ∧
    (playTrackF pausedLowPower).1.timerArmed = false ∧
    (playTrackF pausedLowPower).1.graph.suspended = false := by
  refine ⟨(spec_C4_theorem.2.2.1 pausedLowPower rfl rfl).2.2.1, ?_, ?_⟩
  · exact (spec_C4_theorem.2.2.2.2 pausedLowPower (by decide)).1
  · exact (spec_C4_theorem.2.2.2.2 pausedLowPower (by decide)).2.2.2.1

/-! ## Claim C1: the clamp invariant -/

/-- Eliminate a bounded tick response. -/
theorem okTickB_elim (B : ℕ) (o : Option ℕ) (h : okTickB B o = true) :
    ∀ t, o = some t → t ≤ B := by
  intro t ht
  subst ht
  simpa [okTickB] using h

/-- Eliminate an exact total response. -/
theorem okTotalB_elim (B : ℕ) (o : Option ℕ) (h : okTotalB B o = true) :
    ∀ v, o = some v → v = B := by
  intro v hv
  subst hv
  simpa [okTotalB] using h

/-- `updateFromSynth` preserves the timing invariant when any adopted
positive total equals the track length. -/
theorem updateFromSynth_inv (B : ℕ) (s : AppState) (tot te : Option ℕ)
    (hInv : TickInv B s) (hok : ∀ v, tot = some v → 0 < v → v = B) :
    TickInv B (updateFromSynth s tot te) := by
  obtain ⟨hc, ht⟩ := hInv
  unfold updateFromSynth TickInv
  cases tot with
  | none => cases te <;> simp <;> omega
  | some v =>
    have hv := hok v rfl
    cases te <;> by_cases h0 : 0 < v <;> simp [h0] <;> omega

/-- The tick-sync half preserves the timing invariant for bounded tick
responses. -/
theorem utTickPart_inv (B : ℕ) (r : EngineResp) (s : AppState)
    (hInv : TickInv B s) (hok : okTickB B r.tick = true) :
    TickInv B (utTickPart r s) := by
  unfold utTickPart
  by_cases hp : s.isPlaying = true
  · rw [if_pos hp]
    by_cases hs : s.suppressFirstSynthRead = true
    · rw [if_pos hs]
      exact ⟨hInv.1, hInv.2⟩
    · rw [if_neg hs]
      cases hrt : r.tick with
      | none => exact hInv
      | some t => exact ⟨okTickB_elim B _ hok t hrt, hInv.2⟩
  · rw [if_neg hp]
    exact hInv

/-- An `updateTimeline` pass preserves the timing invariant for bounded
responses. -/
theorem updateTimelineStep_inv (B : ℕ) (r : EngineResp) (s : AppState)
    (hInv : TickInv B s) (hok : okRespB B r = true) :
    TickInv B (updateTimelineStep r s) := by
  have hok' := hok
  unfold okRespB at hok'
  rw [Bool.and_eq_true] at hok'
  have h1 := utTickPart_inv B r s hInv hok'.1
  unfold updateTimelineStep
  split
  · exact updateFromSynth_inv B _ _ _ h1
      (fun v hv _ => okTotalB_elim B _ hok'.2 v hv)
  · exact h1

/-- `playTrack` does not move the playhead or the total. -/
theorem playTrackF_inv (B : ℕ) (s : AppState) (hInv : TickInv B s) :
    TickInv B (playTrackF s).1 := by
  unfold playTrackF
  split
  · exact hInv
  · obtain ⟨hc, ht⟩ := hInv
    exact ⟨hc, ht⟩

/-- `pauseTrack` preserves the timing invariant for bounded responses. -/
theorem pauseTrackF_inv (B : ℕ) (rb : Option ℕ) (ui : EngineResp)
    (s : AppState) (hInv : TickInv B s) (hokt : okTickB B rb = true)
    (hokui : okRespB B ui = true) :
    TickInv B (pauseTrackF rb ui s).1 := by
  cases rb with
  | none =>
    have h2 : TickInv B ({ s with isPlaying := false } : AppState) :=
      ⟨hInv.1, hInv.2⟩
    have h3 := updateTimelineStep_inv B ui _ h2 hokui
    exact ⟨h3.1, h3.2⟩
  | some t =>
    have hle : t ≤ B := okTickB_elim B _ hokt t rfl
    have h2 : TickInv B ({ s with currentTick := t, isPlaying := false } : AppState) :=
      ⟨hle, hInv.2⟩
    have h3 := updateTimelineStep_inv B ui _ h2 hokui
    exact ⟨h3.1, h3.2⟩

/-- `stopTrack` preserves the timing invariant for bounded responses. -/
theorem stopTrackF_inv (B : ℕ) (ui : EngineResp) (s : AppState)
    (hInv : TickInv B s) (hokui : okRespB B ui = true) :
    TickInv B (stopTrackF ui s).1 := by
  unfold stopTrackF
  dsimp only
  have h2 : TickInv B { s with currentTick := 0, isPlaying := false } :=
    ⟨Nat.zero_le B, hInv.2⟩
  have h3 := updateTimelineStep_inv B ui _ h2 hokui
  exact ⟨h3.1, h3.2⟩

/-- `rewindToBeginning` preserves the timing invariant for bounded
responses. -/
theorem rewindToBeginningF_inv (B : ℕ) (ui : EngineResp) (s : AppState)
    (hInv : TickInv B s) (hokui : okRespB B ui = true) :
    TickInv B (rewindToBeginningF ui s).1 := by
  unfold rewindToBeginningF
  split
  · exact hInv
  · exact updateTimelineStep_inv B ui _ ⟨Nat.zero_le B, hInv.2⟩ hokui

/-- `loadTrack` establishes the timing invariant from scratch for bounded
responses. -/
theorem loadTrackF_inv (B : ℕ) (index : ℤ) (p : LoadResp) (s : AppState)
    (hInv : TickInv B s) (hok : okLoadB B p = true) :
    TickInv B (loadTrackF index p s).1 := by
  have hok' := hok
  unfold okLoadB at hok'
  rw [Bool.and_eq_true] at hok'
  unfold loadTrackF
  split
  · exact hInv
  · dsimp only
    apply updateTimelineStep_inv B p.ui _ _ hok'.2
    apply updateFromSynth_inv B _ _ _ ⟨Nat.zero_le B, Or.inl rfl⟩
    intro v hv h0
    cases hpt : p.total with
    | none =>
      rw [hpt] at hv
      simp at hv
      omega
    | some w =>
      rw [hpt] at hv
      simp at hv
      rw [← hv]
      exact okTotalB_elim B _ hok'.1 w hpt

/-- `onEnded` preserves the timing invariant for bounded responses. -/
theorem onEndedF_inv (B : ℕ) (p : LoadResp) (sui : EngineResp) (s : AppState)
    (hInv : TickInv B s) (hokp : okLoadB B p = true)
    (hoksui : okRespB B sui = true) :
    TickInv B (onEndedF p sui s).1 := by
  unfold onEndedF
  dsimp only
  have h1 : TickInv B { s with isPlaying := false } := ⟨hInv.1, hInv.2⟩
  split
  · split
    · exact playTrackF_inv B _ ⟨Nat.zero_le B, h1.2⟩
    · exact stopTrackF_inv B sui _ h1 hoksui
  · split
    · exact playTrackF_inv B _ (loadTrackF_inv B _ p _ h1 hokp)
    · exact stopTrackF_inv B sui _ h1 hoksui

/-- `checkForTrackEnd` preserves the timing invariant for bounded
responses. -/
theorem checkForTrackEndF_inv (B : ℕ) (st : Bool) (p : LoadResp)
    (sui : EngineResp) (s : AppState) (hInv : TickInv B s)
    (hokp : okLoadB B p = true) (hoksui : okRespB B sui = true) :
    TickInv B (checkForTrackEndF st p sui s).1 := by
  unfold checkForTrackEndF
  split
  · exact hInv
  · split
    · exact onEndedF_inv B p sui s hInv hokp hoksui
    · exact hInv

/-- `togglePlayPause` preserves the timing invariant for bounded
responses. -/
theorem togglePlayPauseF_inv (B : ℕ) (rb : Option ℕ) (pui : EngineResp)
    (lp : LoadResp) (s : AppState) (hInv : TickInv B s)
    (hokt : okTickB B rb = true) (hokui : okRespB B pui = true)
    (hokl : okLoadB B lp = true) :
    TickInv B (togglePlayPauseF rb pui lp s).1 := by
  unfold togglePlayPauseF
  split
  · exact pauseTrackF_inv B rb pui s hInv hokt hokui
  · split
    · exact playTrackF_inv B _ (loadTrackF_inv B _ lp _ hInv hokl)
    · exact playTrackF_inv B _ hInv

/-- The slider target never exceeds the total for an in-range slider
value. -/
theorem seekTarget_le (v T : ℕ) (hv : v ≤ SEEK_SLIDER_MAX) :
    (⌊((v : ℚ) / (SEEK_SLIDER_MAX : ℚ)) * (T : ℚ)⌋).toNat ≤ T := by
  have hf1 : ((v : ℚ) / (SEEK_SLIDER_MAX : ℚ)) ≤ 1 := by
    rw [div_le_one (by norm_num [SEEK_SLIDER_MAX])]
    exact_mod_cast by simpa [SEEK_SLIDER_MAX] using hv
  have hle : ((v : ℚ) / (SEEK_SLIDER_MAX : ℚ)) * (T : ℚ) ≤ (T : ℚ) :=
    mul_le_of_le_one_left (by positivity) hf1
  have hfl : ⌊((v : ℚ) / (SEEK_SLIDER_MAX : ℚ)) * (T : ℚ)⌋ ≤ (T : ℤ) := by
    have := Int.floor_le_floor hle
    rwa [Int.floor_natCast] at this
  exact Int.toNat_le.mpr hfl

/-- The seek slider preserves the timing invariant for in-range values and
bounded responses. -/
theorem seekSliderF_inv (B : ℕ) (v : ℕ) (ui : EngineResp) (s : AppState)
    (hInv : TickInv B s) (hv : v ≤ SEEK_SLIDER_MAX)
    (hokui : okRespB B ui = true) :
    TickInv B (seekSliderF v ui s).1 := by
  unfold seekSliderF
  split
  · dsimp only
    apply updateTimelineStep_inv B ui _ _ hokui
    refine ⟨?_, hInv.2⟩
    have hB : s.totalTicks = B := by
      rcases hInv.2 with h | h
      · omega
      · exact h
    calc (⌊((v : ℚ) / (SEEK_SLIDER_MAX : ℚ)) * (s.totalTicks : ℚ)⌋).toNat
        ≤ s.totalTicks := seekTarget_le v s.totalTicks hv
      _ ≤ B := by omega
  · exact hInv

/-- The low-power timeout does not move the playhead or the total. -/
theorem timerFireF_inv (B : ℕ) (s : AppState) (hInv : TickInv B s) :
    TickInv B (timerFireF s).1 := by
  unfold timerFireF
  split
  · dsimp only
    split
    · exact ⟨hInv.1, hInv.2⟩
    · exact ⟨hInv.1, hInv.2⟩
  · exact hInv

/-- One operation preserves the timing invariant when its responses are
bounded by the track length. -/
theorem stepOp_inv (B : ℕ) (s : AppState) (op : Op) (hInv : TickInv B s)
    (hok : okOpB B op = true) : TickInv B (stepOp s op).1 := by
  cases op with
  | play => exact playTrackF_inv B s hInv
  | pause rb ui =>
    rw [show okOpB B (Op.pause rb ui) = (okTickB B rb && okRespB B ui) from rfl,
      Bool.and_eq_true] at hok
    exact pauseTrackF_inv B rb ui s hInv hok.1 hok.2
  | stop ui => exact stopTrackF_inv B ui s hInv hok
  | toggle rb pui lp =>
    rw [show okOpB B (Op.toggle rb pui lp) =
        (okTickB B rb && okRespB B pui && okLoadB B lp) from rfl,
      Bool.and_eq_true, Bool.and_eq_true] at hok
    exact togglePlayPauseF_inv B rb pui lp s hInv hok.1.1 hok.1.2 hok.2
  | seekSlider v ui =>
    rw [show okOpB B (Op.seekSlider v ui) =
        (decide (v ≤ SEEK_SLIDER_MAX) && okRespB B ui) from rfl,
      Bool.and_eq_true] at hok
    exact seekSliderF_inv B v ui s hInv (by simpa using hok.1) hok.2
  | rewind ui => exact rewindToBeginningF_inv B ui s hInv hok
  | load i p => exact loadTrackF_inv B i p s hInv hok
  | uiTick ui => exact updateTimelineStep_inv B ui s hInv hok
  | endCheck st p sui =>
    rw [show okOpB B (Op.endCheck st p sui) =
        (okLoadB B p && okRespB B sui) from rfl, Bool.and_eq_true] at hok
    exact checkForTrackEndF_inv B st p sui s hInv hok.1 hok.2
  | timerFire => exact timerFireF_inv B s hInv

/-- C1 counterexample: from the initial one-track state, load the 100-tick
track, play, and let the UI loop read an engine tick of 150.  The stored
`currentTick` becomes 150 while `totalTicks` is 100: the engine-reported
tick is written without any clamp (`TimingState.clampTick` exists in the
source but is never invoked), violating
`0 ≤ currentTick ≤ totalTicks` with `totalTicks > 0`. -/
theorem spec_C1_counterexample :
    0 < (runOps initialOneTrack cxOps).totalTicks ∧
    (runOps initialOneTrack cxOps).totalTicks
      < (runOps initialOneTrack cxOps).currentTick := by
  decide

/-- C1 (amended): `clampTick` would establish the invariant but is never
invoked, and ticks read back from the engine are stored unclamped, so the
invariant `0 ≤ currentTick ≤ totalTicks` (when `totalTicks > 0`) holds
after any sequence of transport operations only under the assumption that
the engine stays within the track length: if every engine tick response is
at most `B` and every total response equals `B`, then any operation
sequence keeps `currentTick ≤ B` and `totalTicks ∈ {0, B}`, hence
`currentTick ≤ totalTicks` whenever `totalTicks > 0`.  (The lower bound
`0 ≤ currentTick` is inherent: every stored tick is a natural number.) -/
theorem spec_C1_theorem (B : ℕ) (s : AppState) (ops : List Op)
    (hInv : TickInv B s) (hok : ops.all (okOpB B) = true) :
    (∀ st : AppState, 0 < st.totalTicks →
      (clampTick st).currentTick ≤ st.totalTicks) ∧
    TickInv B (runOps s ops) ∧
    (0 < (runOps s ops).totalTicks →
      (runOps s ops).currentTick ≤ (runOps s ops).totalTicks) := by
  have hclamp : ∀ st : AppState, 0 < st.totalTicks →
      (clampTick st).currentTick ≤ st.totalTicks := by
    intro st h
    unfold clampTick
    simp [Nat.min_le_right]
  have hrun : TickInv B (runOps s ops) := by
    induction ops generalizing s with
    | nil => exact hInv
    | cons op rest ih =>
      rw [List.all_cons, Bool.and_eq_true] at hok
      exact ih (stepOp s op).1 (stepOp_inv B s op hInv hok.1) hok.2
  refine ⟨hclamp, hrun, ?_⟩
  intro hpos
  rcases hrun.2 with h | h
  · omega
  · calc (runOps s ops).currentTick ≤ B := hrun.1
      _ = (runOps s ops).totalTicks := h.symm

/-- Witness for C1 (amended): a bounded run on the one-track playlist keeps
the playhead inside the 100-tick track. -/
theorem spec_C1_witness :
    TickInv 100 (runOps initialOneTrack
      [Op.load 0 cxLoad, Op.play,
       Op.uiTick { tick := some 50, total := none, tempo := none }]) := by
  have h := spec_C1_theorem 100 initialOneTrack
    [Op.load 0 cxLoad, Op.play,
     Op.uiTick { tick := some 50, total := none, tempo := none }]
    (by constructor <;> simp [initialOneTrack, TickInv]) (by decide)
  exact h.2.1

/-! ## Claim C6: seek by fraction -/

/-- C6: the seek-slider handler is applied only when `totalTicks > 0`; it
writes `currentTick = floor(fraction * totalTicks)` immediately (visible
here whenever the engine read-back does not overwrite it, in particular in
every non-playing mode — scrubbing while paused) and forwards that tick to
the adapter unconditionally, not reading the transport mode; reading the
position back as a fraction of `totalTicks` recovers the requested fraction
within one tick's resolution, for every in-range slider value (hence for
the fractions 0, 1/4, 1/2 and 1 in particular). -/
theorem spec_C6_theorem (v : ℕ) (ui : EngineResp) (s : AppState) :
    (s.totalTicks = 0 → seekSliderF v ui s = (s, [])) ∧
    (0 < s.totalTicks →
      (seekSliderF v ui s).2 =
        [Cmd.seek ((⌊((v : ℚ) / (SEEK_SLIDER_MAX : ℚ)) *
          (s.totalTicks : ℚ)⌋).toNat)]) ∧
    (0 < s.totalTicks → s.isPlaying = false →
      ((seekSliderF v ui s).1.currentTick : ℤ) =
        ⌊((v : ℚ) / (SEEK_SLIDER_MAX : ℚ)) * (s.totalTicks : ℚ)⌋) ∧
    (0 < s.totalTicks → s.isPlaying = false → v ≤ SEEK_SLIDER_MAX →
      0 ≤ ((v : ℕ) : ℚ) / (SEEK_SLIDER_MAX : ℚ) -
          ((seekSliderF v ui s).1.currentTick : ℚ) / (s.totalTicks : ℚ) ∧
      ((v : ℕ) : ℚ) / (SEEK_SLIDER_MAX : ℚ) -
          ((seekSliderF v ui s).1.currentTick : ℚ) / (s.totalTicks : ℚ)
        < 1 / (s.totalTicks : ℚ)) := by
  have hnn : (0 : ℚ) ≤ ((v : ℚ) / (SEEK_SLIDER_MAX : ℚ)) * (s.totalTicks : ℚ) := by
    positivity
  have hfnn : 0 ≤ ⌊((v : ℚ) / (SEEK_SLIDER_MAX : ℚ)) * (s.totalTicks : ℚ)⌋ :=
    Int.floor_nonneg.mpr hnn
  have hct : 0 < s.totalTicks → s.isPlaying = false →
      ((seekSliderF v ui s).1.currentTick : ℤ) =
        ⌊((v : ℚ) / (SEEK_SLIDER_MAX : ℚ)) * (s.totalTicks : ℚ)⌋ := by
    intro h hm
    unfold seekSliderF
    rw [if_pos h]
    dsimp only
    rw [updateTimelineStep_notPlaying_currentTick ui
      { s with currentTick :=
          (⌊((v : ℚ) / (SEEK_SLIDER_MAX : ℚ)) * (s.totalTicks : ℚ)⌋).toNat } hm]
    exact Int.toNat_of_nonneg hfnn
  refine ⟨?_, ?_, hct, ?_⟩
  · intro h
    unfold seekSliderF
    rw [if_neg (by omega)]
  · intro h
    unfold seekSliderF
    rw [if_pos h]
  · intro h hm hv
    have hT : (0 : ℚ) < (s.totalTicks : ℚ) := by exact_mod_cast h
    have hctQ : ((seekSliderF v ui s).1.currentTick : ℚ) =
        ((⌊((v : ℚ) / (SEEK_SLIDER_MAX : ℚ)) * (s.totalTicks : ℚ)⌋ : ℤ) : ℚ) := by
      exact_mod_cast hct h hm
    have key1 : ((⌊((v : ℚ) / (SEEK_SLIDER_MAX : ℚ)) * (s.totalTicks : ℚ)⌋ : ℤ) : ℚ) /
        (s.totalTicks : ℚ) ≤ (v : ℚ) / (SEEK_SLIDER_MAX : ℚ) := by
      rw [div_le_iff₀ hT]
      exact Int.floor_le _
    have key2 : (v : ℚ) / (SEEK_SLIDER_MAX : ℚ) <
        ((⌊((v : ℚ) / (SEEK_SLIDER_MAX : ℚ)) * (s.totalTicks : ℚ)⌋ : ℤ) : ℚ) /
          (s.totalTicks : ℚ) + 1 / (s.totalTicks : ℚ) := by
      rw [div_add_div_same, lt_div_iff₀ hT]
      exact Int.lt_floor_add_one _
    rw [hctQ]
    constructor
    · linarith
    · linarith

/-- Witness for C6: seeking the paused 4-tick track `csSeek` to slider
value 250 (fraction 1/4) recovers the fraction within one tick. -/
theorem spec_C6_witness :
    0 ≤ ((250 : ℕ) : ℚ) / (SEEK_SLIDER_MAX : ℚ) -
        ((seekSliderF 250 noResp csSeek).1.currentTick : ℚ) /
          (csSeek.totalTicks : ℚ) ∧
    ((250 : ℕ) : ℚ) / (SEEK_SLIDER_MAX : ℚ) -
        ((seekSliderF 250 noResp csSeek).1.currentTick : ℚ) /
          (csSeek.totalTicks : ℚ)
      < 1 / (csSeek.totalTicks : ℚ) :=
  (spec_C6_theorem 250 noResp csSeek).2.2.2 (by decide) rfl (by decide)

end CBB
